import Mathlib

/-!
Verification of the PropertyValuation repository: a shallow embedding of the
listing-extraction pipeline (`scraper.py`), the geocoding resolver
(`geolocation.py`), the PostGIS upsert and nearest-query layer (`database.py`)
and the income valuation (`valuation.py`), together with theorems settling the
behavioural claims about these components.

External collaborators (the geocoding provider, the browser automation layer,
the SQL connection) are modelled as explicit inputs: the provider's candidate
list, per-attempt extraction outcomes, and the table contents are parameters of
the embedded functions.  Machine floats of the source become rationals, SQL
dates become naturals.
-/

namespace PropertyValuation

/-! ## String helpers (Python `.lower()`, `in`, `.strip()`, `.replace`) -/

/-- Python `str.lower()`, character by character. -/
def lowerStr (s : String) : String := String.mk (s.data.map Char.toLower)

/-- Drop leading whitespace characters. -/
def dropLeadWs : List Char → List Char
  | [] => []
  | c :: rest => if c.isWhitespace then dropLeadWs rest else c :: rest

/-- Python `str.strip()`: remove whitespace from both ends. -/
def pyStrip (l : List Char) : List Char :=
  ((dropLeadWs l).reverse |> dropLeadWs).reverse

/-- `matchesAt needle hay`: `needle` occurs at the very start of `hay`. -/
def matchesAt : List Char → List Char → Bool
  | [], _ => true
  | _ :: _, [] => false
  | a :: as, b :: bs => a = b && matchesAt as bs

/-- Python `needle in hay` on strings, as character lists. -/
def containsSeq (needle : List Char) : List Char → Bool
  | [] => matchesAt needle []
  | b :: bs => matchesAt needle (b :: bs) || containsSeq needle bs

/-- Python `needle in hay` on `String`s. -/
def strContains (hay needle : String) : Bool :=
  containsSeq needle.data hay.data

/-! ## Geocoding resolver (`utils/geolocation.py`, `get_coordinates`)

The geopy provider is an external collaborator: its response to the free-text
query is the explicit `locations` argument (`geolocator.geocode(...,
exactly_one=False)`), each candidate carrying the coordinates and the formatted
address string. -/

/-- One candidate returned by the geocoding provider. -/
structure Candidate where
  latitude : ℚ
  longitude : ℚ
  address : String
deriving DecidableEq, Repr

/-- The per-candidate test performed by the loop body of `get_coordinates`:
the (lowered) formatted address contains `str(postcode)` (guarded by Python
truthiness of `postcode`), or it contains both the lowered area name and the
lowered state. -/
def candidateTest (area_name state : String) (postcode : ℕ) (loc : Candidate) : Bool :=
  (postcode ≠ 0 && strContains (lowerStr loc.address) (toString postcode)) ||
  (strContains (lowerStr loc.address) (lowerStr area_name) &&
   strContains (lowerStr loc.address) (lowerStr state))

/-- `get_coordinates` of `utils/geolocation.py`.  The provider response is the
`locations` parameter; an empty response (`if not locations`) yields
`(None, None)`.  The source iterates over the candidates once, returning a
candidate's coordinates as soon as it passes either the postcode test or the
area/state test, and falls back to the first candidate when no candidate
passes. -/
def get_coordinates (locations : List Candidate) (area_name state : String)
    (postcode : ℕ) : Option ℚ × Option ℚ :=
  match locations with
  | [] => (none, none)
  | first :: _ =>
    match locations.find? (candidateTest area_name state postcode) with
    | some loc => (some loc.latitude, some loc.longitude)
    | none => (some first.latitude, some first.longitude)

/-- The disambiguation policy as worded by the specification: a first full pass
preferring any candidate containing the postcode as text, then a second full
pass for candidates containing both area name and state (case-insensitive),
then the first candidate. -/
def getCoordinatesSpec (locations : List Candidate) (area_name state : String)
    (postcode : ℕ) : Option ℚ × Option ℚ :=
  match locations with
  | [] => (none, none)
  | first :: _ =>
    match locations.find? (fun loc => strContains loc.address (toString postcode)) with
    | some loc => (some loc.latitude, some loc.longitude)
    | none =>
      match locations.find? (fun loc =>
          strContains (lowerStr loc.address) (lowerStr area_name) &&
          strContains (lowerStr loc.address) (lowerStr state)) with
      | some loc => (some loc.latitude, some loc.longitude)
      | none => (some first.latitude, some first.longitude)

/-! ## Address extraction (`scraper/scraper.py`, `extract_address`) -/

/-- Python `s.split(c, 1)`: the part before the first occurrence of `c`, and
`some` of everything after it (`none` when `c` does not occur). -/
def splitOnceOn (c : Char) : List Char → List Char × Option (List Char)
  | [] => ([], none)
  | x :: xs =>
    if x = c then ([], some xs)
    else
      let p := splitOnceOn c xs
      (x :: p.1, p.2)

/-- The processed address of `extract_address`:
`unprocessed_address.strip().replace(",", "")`. -/
def cleanAddress (raw : String) : List Char :=
  (pyStrip raw.data).filter (fun c => c ≠ ',')

/-- `extract_address` of `scraper/scraper.py`.  `found` models whether the
`find_element` lookup of the address node succeeds (its failure is the
`except` branch returning `(None, None)`, embedded as `none`).  On success the
address is stripped, commas are removed, and it is split on `'/'` at most
once; the unit defaults to `"N/A"` and the street to the whole processed
string; when the split yields two parts, the second part becomes the street
address unconditionally, and the first becomes the unit only for property
types 0 (apartment) and 2 (townhouse). -/
def extract_address (found : Bool) (raw : String) (property_type : ℤ) :
    Option (String × String) :=
  if found then
    let processed := cleanAddress raw
    match splitOnceOn '/' processed with
    | (_, none) => some ("N/A", String.mk processed)
    | (p1, some p2) =>
      some (if property_type = 0 ∨ property_type = 2 then String.mk p1 else "N/A",
            String.mk p2)
  else none

/-! ## Price extraction (`scraper/scraper.py`, `filter_digit` / `extract_price`)

`filter_digit` searches the string with the regular expression
`\d+(?:,\d+)*`, i.e. the first run of digits possibly continued by
comma-separated digit groups, strips the commas and parses the result as an
integer. -/

/-- Maximal leading digit run and the remainder (`\d+` at the current
position). -/
def takeDigits : List Char → List Char × List Char
  | [] => ([], [])
  | c :: rest =>
    if c.isDigit then
      let p := takeDigits rest
      (c :: p.1, p.2)
    else ([], c :: rest)

/-- The `(?:,\d+)*` continuation of the regex match: as long as the remainder
starts with a comma followed by at least one digit, the comma and the digit
run are part of the match.  The recursion consumes at least two characters per
step, so the input length is enough fuel. -/
def commaGroupsF : ℕ → List Char → List Char
  | 0, _ => []
  | fuel + 1, l =>
    match l with
    | ',' :: rest =>
      match takeDigits rest with
      | ([], _) => []
      | (d :: ds, rest2) => ',' :: (d :: ds) ++ commaGroupsF fuel rest2
    | _ => []

/-- Full matched text of `re.search(r"\d+(?:,\d+)*", s)` at the first position
where a digit occurs, or `none` when the string contains no digit. -/
def regexSearch (l : List Char) : Option (List Char) :=
  match l with
  | [] => none
  | c :: rest =>
    if c.isDigit then
      let p := takeDigits (c :: rest)
      some (p.1 ++ commaGroupsF rest.length p.2)
    else regexSearch rest

/-- Python `int` on a string of decimal digits. -/
def digitsToNat (l : List Char) : ℕ :=
  l.foldl (fun n c => 10 * n + (c.toNat - 48)) 0

/-- `filter_digit` of `scraper/scraper.py`: first regex match of
`\d+(?:,\d+)*`, commas removed, parsed as an integer; `none` when there is no
match. -/
def filter_digit (s : String) : Option ℕ :=
  (regexSearch s.data).map (fun m => digitsToNat (m.filter (fun c => c ≠ ',')))

/-- Python `s.split(' ', 1)[0]`: the characters before the first space. -/
def firstSpaceToken (l : List Char) : List Char :=
  (splitOnceOn ' ' l).1

/-- `extract_price` of `scraper/scraper.py`: the price node's text is stripped
(`.text.strip()`), the substring before the first space is taken, and
`filter_digit` extracts the integer.  The `mode` argument of the source is
unused ("reserved for extension"). -/
def extract_price (priceText : String) (mode : ℕ) : Option ℕ :=
  filter_digit (String.mk (firstSpaceToken (pyStrip priceText.data)))

/-! ## Property type mapping and listing records (`scraper/scraper.py`) -/

/-- `Scraper.map_property_type`: the fixed character table
`{'A': 0, 'S': 1, 'T': 2, 'H': 3, 'C': 4}` with `-1` for any other
character. -/
def map_property_type (c : Char) : ℤ :=
  if c = 'A' then 0
  else if c = 'S' then 1
  else if c = 'T' then 2
  else if c = 'H' then 3
  else if c = 'C' then 4
  else -1

/-- A listing record as appended to the result list of `Scraper.scrape` and
consumed by `store_data_in_postgis`.  Coordinates are rationals standing for
the source's floats; `unit` is optional because the database column is
nullable, although the scraper always supplies a string. -/
structure Record where
  postcode : ℤ
  unit : Option String
  street_address : String
  bedroom_num : ℤ
  bathroom_num : ℤ
  parking_num : ℤ
  price : ℤ
  property_type : ℤ
  latitude : Option ℚ
  longitude : Option ℚ
  description : String
deriving DecidableEq, Repr

/-- Python truthiness of an optional coordinate: `None` and `0.0` are falsy
(`if not latitude or not longitude`, `if longitude and latitude`). -/
def truthyCoord : Option ℚ → Bool
  | none => false
  | some x => x ≠ 0

/-- The raw observations one loop iteration of `Scraper.scrape` makes about a
single listing node, i.e. the outputs of the external browser-automation
calls: the area line, the type label character, the address node and its text,
the feature triple read by `extract_features`, the price text, and the
geocoder's answer for the extracted street address. -/
structure ListingInput where
  area_name : String
  extracted_state : String
  type_char : Char
  addr_found : Bool
  raw_address : String
  features : ℤ × ℤ × ℤ
  price_text : String
  geocode : Option ℚ × Option ℚ
deriving Repr

/-- The body of the per-listing extraction in `Scraper.scrape` (the `try`
block at lines 236–268): produce the record appended to `rental_data`, or
`none` when one of the `break` guards fires — state mismatch, falsy street
address, falsy price (absent or zero), falsy latitude or longitude (absent or
zero).  Property type 4 (car space) forces bedrooms and bathrooms to 0. -/
def mkListingRecord (state : String) (postcode : ℤ) (inp : ListingInput) :
    Option Record :=
  if inp.extracted_state ≠ state then none
  else
    let property_type := map_property_type inp.type_char
    match extract_address inp.addr_found inp.raw_address property_type with
    | none => none
    | some (unit, street_address) =>
      if street_address = "" then none
      else
        let bedroom_num := if property_type = 4 then 0 else inp.features.1
        let bathroom_num := if property_type = 4 then 0 else inp.features.2.1
        let parking_num := inp.features.2.2
        match extract_price inp.price_text 0 with
        | none => none
        | some price =>
          if price = 0 then none
          else
            if truthyCoord inp.geocode.1 && truthyCoord inp.geocode.2 then
              match inp.geocode with
              | (some lat, some lng) =>
                some { postcode := postcode, unit := some unit,
                       street_address := street_address,
                       bedroom_num := bedroom_num, bathroom_num := bathroom_num,
                       parking_num := parking_num, price := (price : ℤ),
                       property_type := property_type,
                       latitude := some lat, longitude := some lng,
                       description := "" }
              | _ => none
            else none

/-! ## Per-record retry loop (`Scraper.scrape`, lines 232–274)

Each attempt at a positional index re-resolves the element and runs the whole
extraction; the attempt's interaction with the external browser is summarised
by its outcome. -/

/-- Outcome of one extraction attempt at a fixed positional index. -/
inductive Outcome where
  /-- The record was fully extracted and appended (the final `break`). -/
  | success (r : Record)
  /-- `StaleElementReferenceException`: `retry += 1`, the loop re-attempts. -/
  | stale
  /-- One of the skip guards fired (wrong state, falsy street/price/coords):
  `break` without appending. -/
  | skip
  /-- Any other exception: logged, `break` without appending. -/
  | fault
deriving Repr

/-- The `while retry < 3` loop of `Scraper.scrape` starting at retry counter
`retry`: attempt outcomes are indexed by the retry counter; `stale` increments
it, every other outcome leaves the loop, and reaching 3 drops the record. -/
def attemptFrom (attempts : ℕ → Outcome) (retry : ℕ) : Option Record :=
  if retry < 3 then
    match attempts retry with
    | .success r => some r
    | .stale => attemptFrom attempts (retry + 1)
    | .skip => none
    | .fault => none
  else none
termination_by 3 - retry

/-- One page of `Scraper.scrape`: the `for i in range(len(listings))` loop.
`oracle i` gives the outcomes of the successive attempts at index `i`; the
records of successful indices are collected in index order. -/
def scrapePage (oracle : ℕ → ℕ → Outcome) (n : ℕ) : List Record :=
  (List.range n).filterMap (fun i => attemptFrom (oracle i) 0)

/-! ## Storage layer (`database/database.py`)

A table row carries the columns of the `rental_properties` / `sold_properties`
schema (`create_tables`); the `geom` column is always derived from
latitude/longitude and is therefore not modelled separately.  `id` is the
`SERIAL` primary key, supplied by the table's `nextId` counter.  Dates are
naturals. -/

/-- One persisted row of a property table. -/
structure Row where
  id : ℕ
  postcode : ℤ
  unit : Option String
  street_address : String
  bedroom_num : ℤ
  bathroom_num : ℤ
  parking_num : ℤ
  price : ℤ
  property_type : ℤ
  record_date : ℕ
  inactive : Bool
  last_recorded_date : ℕ
  latitude : ℚ
  longitude : ℚ
  description : String
deriving DecidableEq, Repr

/-- One property table: the rows in insertion order and the next `SERIAL`
id. -/
structure Table where
  rows : List Row
  nextId : ℕ
deriving DecidableEq, Repr

/-- The identity key of the dedup lookup in `store_data_in_postgis`: the
`WHERE` clause compares postcode, `COALESCE(unit, '')`, street address, the
three feature counts, property type, latitude and longitude. -/
structure Key where
  postcode : ℤ
  unit : String
  street_address : String
  bedroom_num : ℤ
  bathroom_num : ℤ
  parking_num : ℤ
  property_type : ℤ
  latitude : ℚ
  longitude : ℚ
deriving DecidableEq, Repr

/-- Identity key of a stored row (`COALESCE(unit, '')` ↦ `getD ""`). -/
def keyOf (w : Row) : Key :=
  ⟨w.postcode, w.unit.getD "", w.street_address, w.bedroom_num, w.bathroom_num,
   w.parking_num, w.property_type, w.latitude, w.longitude⟩

/-- Identity key of an incoming record whose coordinates are present. -/
def recordKey (r : Record) (lat lng : ℚ) : Key :=
  ⟨r.postcode, r.unit.getD "", r.street_address, r.bedroom_num, r.bathroom_num,
   r.parking_num, r.property_type, lat, lng⟩

/-- The `UPDATE ... SET last_recorded_date = %s WHERE id = %s` touch. -/
def touch (d : ℕ) (w : Row) : Row := { w with last_recorded_date := d }

/-- The row built by the `INSERT` branch of `store_data_in_postgis`:
`record_date = last_recorded_date = today`, `inactive = FALSE`, description
defaulted to the record's. -/
def newRow (t : Table) (r : Record) (lat lng : ℚ) (d : ℕ) : Row :=
  { id := t.nextId, postcode := r.postcode, unit := r.unit,
    street_address := r.street_address, bedroom_num := r.bedroom_num,
    bathroom_num := r.bathroom_num, parking_num := r.parking_num,
    price := r.price, property_type := r.property_type, record_date := d,
    inactive := false, last_recorded_date := d, latitude := lat,
    longitude := lng, description := r.description }

/-- The per-record body of the loop in `store_data_in_postgis`: records with
a missing coordinate are skipped; otherwise the `SELECT id ... WHERE` lookup
finds the first row with the same identity key and its `last_recorded_date`
is set to today, or a fresh row is inserted at the end of the table. -/
def storeOne (d : ℕ) (t : Table) (r : Record) : Table :=
  match r.latitude, r.longitude with
  | some lat, some lng =>
    match t.rows.find? (fun w => keyOf w == recordKey r lat lng) with
    | some w =>
      { t with rows := t.rows.map (fun x => if x.id = w.id then touch d x else x) }
    | none => { rows := t.rows ++ [newRow t r lat lng d], nextId := t.nextId + 1 }
  | _, _ => t

/-- The `for row in data` loop of `store_data_in_postgis` on one table, in the
fault-free execution. -/
def storeList (d : ℕ) (data : List Record) (t : Table) : Table :=
  match data with
  | [] => t
  | r :: rs => storeList d rs (storeOne d t r)

/-- The database state: the two tables owned by `DatabaseManager`. -/
structure DB where
  rental_properties : Table
  sold_properties : Table
deriving DecidableEq, Repr

/-- The table selected by `mode` (`"sold_properties" if mode else
"rental_properties"`). -/
def tableOf (db : DB) (mode : Bool) : Table :=
  if mode then db.sold_properties else db.rental_properties

/-- `DatabaseManager.store_data_in_postgis` in the fault-free execution:
applies the per-record upsert loop to the table selected by `mode`. -/
def store_data_in_postgis (db : DB) (data : List Record) (mode : Bool)
    (today : ℕ) : DB :=
  if mode then { db with sold_properties := storeList today data db.sold_properties }
  else { db with rental_properties := storeList today data db.rental_properties }

/-- `store_data_in_postgis` with faults: the source wraps the whole record
loop in a single `try`/`except` that prints the error and returns normally.
`fails r` says whether processing record `r` raises.  The Boolean result
records whether the `except` branch ran; in every case the Python function
returns without raising to its caller. -/
def store_with_fault (fails : Record → Bool) (d : ℕ) :
    List Record → Table → Table × Bool
  | [], t => (t, false)
  | r :: rs, t =>
    if fails r then (t, true)
    else store_with_fault fails d rs (storeOne d t r)

/-! ## Nearest query and income valuation (`database.py`, `valuation.py`) -/

/-- Modelled from the spec: the stored procedure `get_k_nearest_properties`
lives in `pgsql_functions.sql`, which is not among the analysed sources; the
spec says it returns at most `k` candidate rows with the persisted columns,
and the valuation layer documents that the seventh column (`prop[6]`) of each
returned row is the price.  A returned row is modelled by the field the
valuation layer reads. -/
structure QRow where
  price : ℚ
deriving DecidableEq, Repr

/-- `DatabaseManager.query_k_nearest_properties`: resolve the query address
through `get_coordinates` (the provider response is `locations`); when
`longitude and latitude` is falsy — either coordinate absent or `0.0` — print
and return `None` without running the stored procedure; otherwise return the
procedure's rows (`procRows`, an oracle for the out-of-source SQL). -/
def query_k_nearest_properties (locations : List Candidate)
    (area_name state : String) (postcode : ℕ) (procRows : List QRow) :
    Option (List QRow) :=
  let p := get_coordinates locations area_name state postcode
  if truthyCoord p.2 && truthyCoord p.1 then some procRows else none

/-- Insert into a list sorted ascending. -/
def insertSorted (x : ℚ) : List ℚ → List ℚ
  | [] => [x]
  | y :: ys => if x ≤ y then x :: y :: ys else y :: insertSorted x ys

/-- Ascending insertion sort on rationals. -/
def sortRat (l : List ℚ) : List ℚ := l.foldr insertSorted []

/-- Modelled from the spec: `numpy.median` (external library) — the middle
element of the sorted values for an odd count, the mean of the two middle
elements for an even count. -/
def npMedian (l : List ℚ) : ℚ :=
  let s := sortRat l
  let n := s.length
  if n % 2 = 1 then s.getD (n / 2) 0
  else (s.getD (n / 2 - 1) 0 + s.getD (n / 2) 0) / 2

/-- The fixed capitalization rate of `income_based_valuation`
(`cap_rate = 0.05`). -/
def cap_rate : ℚ := 1 / 20

/-- `PropertyValuator.income_based_valuation`, given the result of the
`query_k_nearest_properties` call (`None`, or the fetched rows): with a `None`
result or fewer than 3 rows it reports insufficient data (`None`); otherwise
it returns `median(prices) * 12 / cap_rate`.  (`if not rental_properties`
also catches the empty list, which `len < 3` subsumes.) -/
def income_based_valuation (rental_properties : Option (List QRow)) : Option ℚ :=
  match rental_properties with
  | none => none
  | some rows =>
    if rows.length < 3 then none
    else some (npMedian (rows.map QRow.price) * 12 / cap_rate)

/-! ## Shared helper lemmas -/

theorem splitOnceOn_of_not_mem {c : Char} {l : List Char} (h : c ∉ l) :
    splitOnceOn c l = (l, none) := by
  induction l with
  | nil => rfl
  | cons x xs ih =>
    have hx : ¬ x = c := fun he => h (he ▸ List.mem_cons_self x xs)
    have hxs : c ∉ xs := fun hm => h (List.mem_cons_of_mem x hm)
    simp [splitOnceOn, hx, ih hxs]

theorem splitOnceOn_append {c : Char} {u v : List Char} (h : c ∉ u) :
    splitOnceOn c (u ++ c :: v) = (u, some v) := by
  induction u with
  | nil => simp [splitOnceOn]
  | cons x xs ih =>
    have hx : ¬ x = c := fun he => h (he ▸ List.mem_cons_self x xs)
    have hxs : c ∉ xs := fun hm => h (List.mem_cons_of_mem x hm)
    simp [splitOnceOn, hx, ih hxs]

theorem splitOnceOn_some_mem {c : Char} {l a b : List Char}
    (h : splitOnceOn c l = (a, some b)) : c ∈ l := by
  by_contra hmem
  rw [splitOnceOn_of_not_mem hmem] at h
  simp at h

theorem find?_first_true {α : Type} (p : α → Bool) (L1 : List α) (c : α)
    (L2 : List α) (h1 : ∀ x ∈ L1, p x = false) (hc : p c = true) :
    List.find? p (L1 ++ c :: L2) = some c := by
  induction L1 with
  | nil => simp [List.find?, hc]
  | cons a t ih =>
    have ha : p a = false := h1 a (List.mem_cons_self a t)
    simp only [List.cons_append, List.find?, ha]
    exact ih (fun x hx => h1 x (List.mem_cons_of_mem a hx))

theorem regexSearch_eq_none_iff (l : List Char) :
    regexSearch l = none ↔ ∀ c ∈ l, ¬ c.isDigit := by
  induction l with
  | nil => simp [regexSearch]
  | cons c rest ih =>
    by_cases h : c.isDigit
    · simp [regexSearch, h]
    · simp [regexSearch, h, ih]

/-! ## C5: price extraction -/

/-- C5: for every price string, the extractor takes the substring before the
first space, extracts the first run of digits possibly separated by commas,
strips the commas, and parses the result as an integer; absence of a digit
run makes extraction fail.  `"$2,500 per week"` yields `2500`,
`"Price Withheld"` fails, and in general `filter_digit` fails exactly when
its input contains no digit. -/
theorem extract_price_spec :
    extract_price "$2,500 per week" 0 = some 2500 ∧
    extract_price "Price Withheld" 0 = none ∧
    (∀ s : String, (filter_digit s = none ↔ ∀ c ∈ s.data, ¬ c.isDigit)) ∧
    (∀ s : String,
      (∀ c ∈ firstSpaceToken (pyStrip s.data), ¬ c.isDigit) →
      extract_price s 0 = none) := by
  have hnone : ∀ s : String, (filter_digit s = none ↔ ∀ c ∈ s.data, ¬ c.isDigit) := by
    intro s
    unfold filter_digit
    rw [Option.map_eq_none']
    exact regexSearch_eq_none_iff s.data
  refine ⟨by decide, by decide, hnone, fun s h => ?_⟩
  exact (hnone (String.mk (firstSpaceToken (pyStrip s.data)))).mpr h

/-- Witness for C5 at the concrete input `"Price"`. -/
theorem extract_price_spec_witness : filter_digit "Price" = none :=
  (extract_price_spec.2.2.1 "Price").mpr (by decide)

/-! ## C8: income-based valuation -/

/-- C8: whenever the rental-comparables query yields no result or fewer than
3 rows, `income_based_valuation` reports insufficient data; with at least 3
rows the result is `median(prices) * 12 / cap_rate`. -/
theorem income_based_valuation_spec :
    income_based_valuation none = none ∧
    (∀ rows : List QRow, rows.length < 3 →
      income_based_valuation (some rows) = none) ∧
    (∀ rows : List QRow, 3 ≤ rows.length →
      income_based_valuation (some rows) =
        some (npMedian (rows.map QRow.price) * 12 / cap_rate)) := by
  refine ⟨rfl, fun rows h => ?_, fun rows h => ?_⟩
  · simp [income_based_valuation, h]
  · simp [income_based_valuation, Nat.not_lt.mpr h]

/-- Witness for C8: three comparables priced 400, 500, 600 give
`500 * 12 / 0.05 = 120000`. -/
theorem income_based_valuation_spec_witness :
    income_based_valuation (some [⟨400⟩, ⟨500⟩, ⟨600⟩]) = some 120000 := by
  rw [income_based_valuation_spec.2.2 [⟨400⟩, ⟨500⟩, ⟨600⟩] (by decide)]
  norm_num [npMedian, sortRat, insertSorted, cap_rate]

/-! ## C2: geocoder disambiguation -/

/-- C2 counterexample: the claim demands that a candidate containing the
postcode beat every candidate that only matches area and state, across the
whole provider list.  With candidates `["Fitzroy VIC", "x 3000"]` for
postcode 3000 the claimed policy (`getCoordinatesSpec`) picks the second
candidate, but `get_coordinates` makes a single pass and returns the first
candidate, which matches area and state only. -/
theorem get_coordinates_single_pass_cex :
    get_coordinates [⟨1, 2, "Fitzroy VIC"⟩, ⟨3, 4, "x 3000"⟩]
      "Fitzroy" "VIC" 3000 = (some 1, some 2) ∧
    getCoordinatesSpec [⟨1, 2, "Fitzroy VIC"⟩, ⟨3, 4, "x 3000"⟩]
      "Fitzroy" "VIC" 3000 = (some 3, some 4) ∧
    ((some 1, some 2) : Option ℚ × Option ℚ) ≠ (some 3, some 4) := by
  exact ⟨by decide, by decide, by decide⟩

/-- C2 amended: the resolver makes a single pass over the candidates in
provider order and returns the coordinates of the first candidate whose
formatted address contains the postcode as text (when the postcode is
truthy) or contains both the area name and the state (case-insensitive);
if no candidate passes either test it returns the first candidate, and an
empty candidate list resolves to `(none, none)`. -/
theorem get_coordinates_first_match :
    (∀ area state pc, get_coordinates [] area state pc = (none, none)) ∧
    (∀ (L1 : List Candidate) (c : Candidate) (L2 : List Candidate)
       (area state : String) (pc : ℕ),
      (∀ x ∈ L1, candidateTest area state pc x = false) →
      candidateTest area state pc c = true →
      get_coordinates (L1 ++ c :: L2) area state pc =
        (some c.latitude, some c.longitude)) ∧
    (∀ (first : Candidate) (rest : List Candidate) (area state : String) (pc : ℕ),
      (∀ x ∈ first :: rest, candidateTest area state pc x = false) →
      get_coordinates (first :: rest) area state pc =
        (some first.latitude, some first.longitude)) := by
  refine ⟨fun _ _ _ => rfl, ?_, ?_⟩
  · intro L1 c L2 area state pc h1 hc
    have hf := find?_first_true (candidateTest area state pc) L1 c L2 h1 hc
    cases L1 with
    | nil => simp only [List.nil_append] at hf ⊢; simp [get_coordinates, hf]
    | cons a t => simp only [List.cons_append] at hf ⊢; simp [get_coordinates, hf]
  · intro first rest area state pc h
    have hf : List.find? (candidateTest area state pc) (first :: rest) = none :=
      List.find?_eq_none.mpr (fun x hx => by simp [h x hx])
    simp [get_coordinates, hf]

/-- Witness for C2 amended: a single candidate containing the postcode is
selected. -/
theorem get_coordinates_first_match_witness :
    get_coordinates [⟨1, 2, "x 3000"⟩] "A" "B" 3000 = (some 1, some 2) :=
  get_coordinates_first_match.2.1 [] ⟨1, 2, "x 3000"⟩ [] "A" "B" 3000
    (by intro x hx; cases hx) (by decide)

/-! ## C3: address splitting -/

/-- C3 counterexample: for a House (type 3) address containing `"/"` the
claim says the whole string becomes the street address, but the source
assigns the part after the slash to the street unconditionally whenever the
split yields two parts: `"12/45 Smith St"` with type 3 yields street
`"45 Smith St"`, not `"12/45 Smith St"`. -/
theorem extract_address_house_slash_cex :
    extract_address true "12/45 Smith St" 3 = some ("N/A", "45 Smith St") ∧
    ("45 Smith St" : String) ≠ "12/45 Smith St" := by
  exact ⟨by decide, by decide⟩

/-- C3 amended: splitting happens on `"/"` at most once; when the processed
address contains no slash, the unit is `"N/A"` and the street is the whole
processed string; when it splits into two parts, the second part becomes the
street address for every property type, and the first part becomes the unit for
Apartment (0) or Townhouse (2) and `"N/A"` otherwise; a failed address
lookup yields no parts at all. -/
theorem extract_address_split_spec :
    (∀ raw pt, extract_address false raw pt = none) ∧
    (∀ raw pt, '/' ∉ cleanAddress raw →
      extract_address true raw pt = some ("N/A", String.mk (cleanAddress raw))) ∧
    (∀ (raw : String) (pt : ℤ) (u v : List Char),
      cleanAddress raw = u ++ '/' :: v → '/' ∉ u →
      extract_address true raw pt =
        some (if pt = 0 ∨ pt = 2 then String.mk u else "N/A", String.mk v)) := by
  refine ⟨fun _ _ => rfl, fun raw pt h => ?_, fun raw pt u v hsplit hu => ?_⟩
  · simp [extract_address, splitOnceOn_of_not_mem h]
  · simp only [extract_address, if_true, hsplit, splitOnceOn_append hu]

/-- Witness for C3 amended: the Apartment example of the claim. -/
theorem extract_address_split_spec_witness :
    extract_address true "12/45 Smith St" 0 = some ("12", "45 Smith St") := by
  have h := extract_address_split_spec.2.2 "12/45 Smith St" 0
    "12".data "45 Smith St".data (by decide) (by decide)
  simpa using h

/-! ## C6: per-record retry -/

/-- A concrete record used by the closed witnesses. -/
def demoRecord : Record :=
  { postcode := 3000, unit := some "N/A", street_address := "45 Smith St",
    bedroom_num := 2, bathroom_num := 1, parking_num := 0, price := 500,
    property_type := 3, latitude := some 10, longitude := some 20,
    description := "" }

/-- C6: a record whose extraction keeps raising the transient stale-element
fault is re-attempted at the same positional index until the third attempt,
then dropped; a successful attempt within the first three appends the record;
any other fault drops the record at once, whatever later attempts would have
produced; and a record successfully extracted at one index is in the page's
result regardless of what happens at the other indices. -/
theorem record_retry_spec :
    (∀ (attempts : ℕ → Outcome) (k : ℕ) (r : Record), k < 3 →
      (∀ j, j < k → attempts j = .stale) → attempts k = .success r →
      attemptFrom attempts 0 = some r) ∧
    (∀ attempts : ℕ → Outcome, (∀ j, j < 3 → attempts j = .stale) →
      attemptFrom attempts 0 = none) ∧
    (∀ (attempts : ℕ → Outcome) (k : ℕ), k < 3 →
      (∀ j, j < k → attempts j = .stale) → attempts k = .fault →
      attemptFrom attempts 0 = none) ∧
    (∀ (oracle : ℕ → ℕ → Outcome) (n i : ℕ) (r : Record), i < n →
      attemptFrom (oracle i) 0 = some r → r ∈ scrapePage oracle n) := by
  refine ⟨?_, ?_, ?_, ?_⟩
  · intro attempts k r hk hst hs
    interval_cases k
    · rw [attemptFrom]; simp [hs]
    · rw [attemptFrom]; simp [hst 0 (by omega)]
      rw [attemptFrom]; simp [hs]
    · rw [attemptFrom]; simp [hst 0 (by omega)]
      rw [attemptFrom]; simp [hst 1 (by omega)]
      rw [attemptFrom]; simp [hs]
  · intro attempts hst
    rw [attemptFrom]; simp [hst 0 (by omega)]
    rw [attemptFrom]; simp [hst 1 (by omega)]
    rw [attemptFrom]; simp [hst 2 (by omega)]
    rw [attemptFrom]; simp
  · intro attempts k hk hst hf
    interval_cases k
    · rw [attemptFrom]; simp [hf]
    · rw [attemptFrom]; simp [hst 0 (by omega)]
      rw [attemptFrom]; simp [hf]
    · rw [attemptFrom]; simp [hst 0 (by omega)]
      rw [attemptFrom]; simp [hst 1 (by omega)]
      rw [attemptFrom]; simp [hf]
  · intro oracle n i r hi hr
    simp only [scrapePage, List.mem_filterMap]
    exact ⟨i, List.mem_range.mpr hi, hr⟩

/-- Witness for C6: two stale attempts followed by a success at the third
attempt still yield the record. -/
theorem record_retry_spec_witness :
    attemptFrom (fun j => if j < 2 then Outcome.stale else Outcome.success demoRecord) 0 =
      some demoRecord :=
  record_retry_spec.1 _ 2 demoRecord (by omega)
    (fun j hj => by interval_cases j <;> rfl) (by simp)

/-! ## C7: records without coordinates are skipped -/

/-- The guard `row.get("longitude") is not None and row.get("latitude") is
not None` of `store_data_in_postgis`. -/
def hasCoords (r : Record) : Bool := r.latitude.isSome && r.longitude.isSome

theorem storeOne_no_coords {r : Record} (h : hasCoords r = false)
    (d : ℕ) (t : Table) : storeOne d t r = t := by
  unfold storeOne
  rcases hl : r.latitude with - | lat <;> rcases hg : r.longitude with - | lng <;>
    simp_all [hasCoords]

theorem storeList_filter_coords (d : ℕ) (data : List Record) (t : Table) :
    storeList d data t = storeList d (data.filter hasCoords) t := by
  induction data generalizing t with
  | nil => rfl
  | cons r rs ih =>
    by_cases h : hasCoords r = true
    · simp only [storeList, List.filter_cons, h, if_pos]
      exact ih (storeOne d t r)
    · have h' : hasCoords r = false := by simpa using h
      simp only [storeList, List.filter_cons, h', storeOne_no_coords h' d t]
      exact ih t

/-- C7: a record lacking latitude or longitude triggers neither lookup,
update nor insert: processing it leaves the table exactly as it was, and an
entire batch stores the same as the batch restricted to records with both
coordinates. -/
theorem skip_missing_coordinates :
    (∀ (d : ℕ) (t : Table) (r : Record),
      r.latitude = none ∨ r.longitude = none → storeOne d t r = t) ∧
    (∀ (db : DB) (data : List Record) (mode : Bool) (today : ℕ),
      store_data_in_postgis db data mode today =
        store_data_in_postgis db (data.filter hasCoords) mode today) := by
  constructor
  · intro d t r h
    apply storeOne_no_coords
    rcases h with h | h <;> simp [hasCoords, h]
  · intro db data mode today
    cases mode <;>
      simp [store_data_in_postgis, ← storeList_filter_coords]

/-- Witness for C7: a record with a missing latitude leaves the empty table
untouched. -/
theorem skip_missing_coordinates_witness :
    storeOne 0 ⟨[], 1⟩ { demoRecord with latitude := none } = ⟨[], 1⟩ :=
  skip_missing_coordinates.1 0 ⟨[], 1⟩ { demoRecord with latitude := none }
    (Or.inl rfl)

/-! ## C9: the unit field of scraped records -/

theorem extract_address_unit {found : Bool} {raw : String} {pt : ℤ}
    {u s : String} (h : extract_address found raw pt = some (u, s)) :
    ((pt ≠ 0 ∧ pt ≠ 2) → u = "N/A") ∧ ('/' ∉ cleanAddress raw → u = "N/A") := by
  unfold extract_address at h
  cases found with
  | false => simp at h
  | true =>
    simp only [if_true] at h
    rcases hs : splitOnceOn '/' (cleanAddress raw) with ⟨p1, p2⟩
    rcases p2 with - | p2
    · rw [hs] at h
      simp only [Option.some.injEq, Prod.mk.injEq] at h
      exact ⟨fun _ => h.1.symm, fun _ => h.1.symm⟩
    · rw [hs] at h
      simp only [Option.some.injEq, Prod.mk.injEq] at h
      refine ⟨fun hpt => ?_, fun hmem => ?_⟩
      · rw [← h.1, if_neg]
        rintro (h0 | h2)
        · exact hpt.1 h0
        · exact hpt.2 h2
      · exact absurd (splitOnceOn_some_mem hs) hmem

/-- Inversion of a successful record extraction: the address extraction
succeeded with the mapped property type, and the record keeps the extracted
unit string. -/
theorem mkListingRecord_success {state : String} {pc : ℤ} {inp : ListingInput}
    {r : Record} (h : mkListingRecord state pc inp = some r) :
    (∃ u s, extract_address inp.addr_found inp.raw_address
        (map_property_type inp.type_char) = some (u, s) ∧
      r.unit = some u ∧ r.property_type = map_property_type inp.type_char) ∧
    (truthyCoord inp.geocode.1 && truthyCoord inp.geocode.2) = true := by
  simp only [mkListingRecord] at h
  by_cases h1 : inp.extracted_state ≠ state
  · rw [if_pos h1] at h; cases h
  · rw [if_neg h1] at h
    rcases heq : extract_address inp.addr_found inp.raw_address
        (map_property_type inp.type_char) with - | us
    · rw [heq] at h; cases h
    · rcases us with ⟨u, s⟩
      rw [heq] at h
      dsimp only at h
      by_cases h2 : s = ""
      · rw [if_pos h2] at h; cases h
      · rw [if_neg h2] at h
        rcases hp : extract_price inp.price_text 0 with - | p
        · rw [hp] at h; cases h
        · rw [hp] at h
          dsimp only at h
          by_cases h3 : p = 0
          · rw [if_pos h3] at h; cases h
          · rw [if_neg h3] at h
            by_cases h4 : (truthyCoord inp.geocode.1 && truthyCoord inp.geocode.2) = true
            · rw [if_pos h4] at h
              rcases hg : inp.geocode with ⟨lat?, lng?⟩
              rw [hg] at h
              rcases lat? with - | lat
              · rw [hg] at h4; simp [truthyCoord] at h4
              · rcases lng? with - | lng
                · rw [hg] at h4; simp [truthyCoord] at h4
                · dsimp only at h
                  simp only [Option.some.injEq] at h
                  rw [hg] at h4
                  exact ⟨⟨u, s, rfl, by rw [← h], by rw [← h]⟩, h4⟩
            · rw [if_neg h4] at h; cases h

/-- C9: every record that `Scraper.scrape` appends carries a concrete unit
string; for property types other than Apartment (0) and Townhouse (2) —
House, Studio, CarSpace, and the unknown type — and for addresses without a
`"/"`, that string is the literal `"N/A"`, never an absent value. -/
theorem record_unit_always_present :
    ∀ (state : String) (pc : ℤ) (inp : ListingInput) (r : Record),
      mkListingRecord state pc inp = some r →
      r.unit.isSome = true ∧
      ((r.property_type ≠ 0 ∧ r.property_type ≠ 2) → r.unit = some "N/A") ∧
      ('/' ∉ cleanAddress inp.raw_address → r.unit = some "N/A") := by
  intro state pc inp r h
  obtain ⟨⟨u, s, heq, hu, hpt⟩, -⟩ := mkListingRecord_success h
  refine ⟨by simp [hu], fun hne => ?_, fun hmem => ?_⟩
  · rw [hu, (extract_address_unit heq).1 (by rw [← hpt]; exact hne)]
  · rw [hu, (extract_address_unit heq).2 hmem]

/-- Witness for C9: a fully successful House extraction yields unit
`some "N/A"`. -/
theorem record_unit_always_present_witness :
    demoRecord.unit = some "N/A" :=
  (record_unit_always_present "VIC" 3000
    { area_name := "Fitzroy", extracted_state := "VIC", type_char := 'H',
      addr_found := true, raw_address := "45 Smith St", features := (2, 1, 0),
      price_text := "$500 pw", geocode := (some 10, some 20) }
    demoRecord (by decide)).2.1 (by decide)

/-! ## C10: coordinates are tested for truthiness, not presence -/

/-- When the coordinate pair fails the truthiness test — either coordinate
absent or equal to `0.0` — no record is produced. -/
theorem mkListingRecord_falsy {state : String} {pc : ℤ} {inp : ListingInput}
    (h : (truthyCoord inp.geocode.1 && truthyCoord inp.geocode.2) = false) :
    mkListingRecord state pc inp = none := by
  rcases hm : mkListingRecord state pc inp with - | r
  · rfl
  · obtain ⟨-, h4⟩ := mkListingRecord_success hm
    rw [h] at h4
    cases h4

/-- C10: a geocoder answer with latitude `0.0` or longitude `0.0` — a
geometrically valid point — is discarded by `scrape` exactly as a failed
geocoding would be, and `query_k_nearest_properties` returns `None` without
running the stored procedure (the result is `none` for every possible
procedure output). -/
theorem falsy_coordinate_handling :
    (∀ (state : String) (pc : ℤ) (inp : ListingInput),
      inp.geocode.1 = some 0 ∨ inp.geocode.2 = some 0 →
      mkListingRecord state pc inp = none ∧
      mkListingRecord state pc inp =
        mkListingRecord state pc { inp with geocode := (none, none) }) ∧
    (∀ (locations : List Candidate) (area_name state : String) (pc : ℕ)
       (procRows : List QRow),
      ((get_coordinates locations area_name state pc).1 = some 0 ∨
       (get_coordinates locations area_name state pc).2 = some 0) →
      query_k_nearest_properties locations area_name state pc procRows = none) := by
  constructor
  · intro state pc inp h
    have hg : (truthyCoord inp.geocode.1 && truthyCoord inp.geocode.2) = false := by
      rcases h with h | h <;> simp [h, truthyCoord]
    have h2 : mkListingRecord state pc { inp with geocode := (none, none) } = none :=
      mkListingRecord_falsy rfl
    exact ⟨mkListingRecord_falsy hg, by rw [mkListingRecord_falsy hg, h2]⟩
  · intro locations area_name state pc procRows h
    rcases h with h | h <;> simp [query_k_nearest_properties, h, truthyCoord]

/-- Witness for C10: a provider candidate resolving to latitude `0` makes the
nearest query give up regardless of the stored rows. -/
theorem falsy_coordinate_handling_witness :
    query_k_nearest_properties [⟨0, 5, "x 3000"⟩] "A" "B" 3000 [⟨100⟩] = none :=
  falsy_coordinate_handling.2 [⟨0, 5, "x 3000"⟩] "A" "B" 3000 [⟨100⟩]
    (Or.inl (by decide))

/-! ## C4: fault handling in the batch upsert -/

/-- A second concrete record with a distinct identity key. -/
def demoRecord2 : Record := { demoRecord with street_address := "2 B St" }

/-- A fault oracle that fails exactly on `demoRecord`. -/
def failsDemo : Record → Bool := fun r => r == demoRecord

/-- C4 counterexample: with a batch `[demoRecord, demoRecord2]` and a
storage fault on the first record, the second record — which stored alone
would insert a row — is never processed (the table stays empty) and the
`except` branch absorbs the fault, returning normally instead of surfacing
it to the caller. -/
theorem store_fault_aborts_batch_cex :
    (store_with_fault failsDemo 0 [demoRecord, demoRecord2] ⟨[], 1⟩).1.rows.length = 0 ∧
    (store_with_fault failsDemo 0 [demoRecord, demoRecord2] ⟨[], 1⟩).2 = true ∧
    (storeList 0 [demoRecord2] ⟨[], 1⟩).rows.length = 1 := by
  exact ⟨by decide, by decide, by decide⟩

/-- C4 amended: the whole record loop of `store_data_in_postgis` sits inside
one `try`/`except`, so a storage fault on one record aborts the processing of
every later record in the batch, and the fault is caught and logged inside
the function rather than surfaced to the caller: the records before the first
failing one are stored, the rest of the batch is dropped, and the function
returns normally. -/
theorem store_fault_behavior :
    (∀ (fails : Record → Bool) (d : ℕ) (L : List Record) (t : Table),
      (∀ x ∈ L, fails x = false) →
      store_with_fault fails d L t = (storeList d L t, false)) ∧
    (∀ (fails : Record → Bool) (d : ℕ) (L1 : List Record) (rf : Record)
       (L2 : List Record) (t : Table),
      (∀ x ∈ L1, fails x = false) → fails rf = true →
      store_with_fault fails d (L1 ++ rf :: L2) t = (storeList d L1 t, true)) := by
  constructor
  · intro fails d L
    induction L with
    | nil => intro t _; rfl
    | cons r rs ih =>
      intro t h
      have hr : fails r = false := h r (List.mem_cons_self r rs)
      simp only [store_with_fault, storeList, hr, Bool.false_eq_true, if_false]
      exact ih (storeOne d t r) (fun x hx => h x (List.mem_cons_of_mem r hx))
  · intro fails d L1 rf L2
    induction L1 with
    | nil =>
      intro t _ hf
      simp only [List.nil_append, store_with_fault, storeList, hf, if_true]
    | cons r rs ih =>
      intro t h hf
      have hr : fails r = false := h r (List.mem_cons_self r rs)
      simp only [List.cons_append, store_with_fault, storeList, hr,
        Bool.false_eq_true, if_false]
      exact ih (storeOne d t r) (fun x hx => h x (List.mem_cons_of_mem r hx)) hf

/-- Witness for C4 amended: a batch whose very first record faults stores
nothing and reports only the logged flag. -/
theorem store_fault_behavior_witness :
    store_with_fault failsDemo 0 ([] ++ demoRecord :: [demoRecord2]) ⟨[], 1⟩ =
      (⟨[], 1⟩, true) :=
  store_fault_behavior.2 failsDemo 0 [] demoRecord [demoRecord2] ⟨[], 1⟩
    (fun x hx => by cases hx) (by decide)

/-! ## C1: idempotence of the upsert

The well-formedness invariant of a property table — every row id below the
`SERIAL` counter, ids pairwise distinct, identity keys pairwise distinct — is
established by the empty table and preserved by the upsert; on a second pass
with the same data every record takes the `UPDATE` branch. -/

/-- A row with its `last_recorded_date` forgotten, to state that an operation
changes nothing but that column. -/
def eraseLrd (w : Row) : Row := { w with last_recorded_date := 0 }

/-- Table well-formedness: fresh `SERIAL` counter, distinct ids, distinct
identity keys. -/
def TableWF (t : Table) : Prop :=
  (∀ w ∈ t.rows, w.id < t.nextId) ∧
  t.rows.Pairwise (fun a b => a.id ≠ b.id) ∧
  t.rows.Pairwise (fun a b => keyOf a ≠ keyOf b)

/-- Some row of the table has identity key `k`. -/
def KeyIn (k : Key) (t : Table) : Prop := ∃ w ∈ t.rows, keyOf w = k

theorem keyOf_touch (d : ℕ) (w : Row) : keyOf (touch d w) = keyOf w := rfl

theorem keyOf_newRow (t : Table) (r : Record) (lat lng : ℚ) (d : ℕ) :
    keyOf (newRow t r lat lng d) = recordKey r lat lng := rfl

/-- The update branch's row transformer preserves everything but
`last_recorded_date`. -/
theorem upd_id (i : ℕ) (d : ℕ) (x : Row) :
    (if x.id = i then touch d x else x).id = x.id := by split <;> rfl

theorem upd_keyOf (i : ℕ) (d : ℕ) (x : Row) :
    keyOf (if x.id = i then touch d x else x) = keyOf x := by split <;> rfl

theorem upd_eraseLrd (i : ℕ) (d : ℕ) (x : Row) :
    eraseLrd (if x.id = i then touch d x else x) = eraseLrd x := by split <;> rfl

theorem storeOne_eq_update {r : Record} {lat lng : ℚ} {t : Table} {w : Row}
    (hl : r.latitude = some lat) (hg : r.longitude = some lng)
    (hf : t.rows.find? (fun w => keyOf w == recordKey r lat lng) = some w)
    (d : ℕ) :
    storeOne d t r =
      { t with rows := t.rows.map (fun x => if x.id = w.id then touch d x else x) } := by
  unfold storeOne
  rw [hl, hg]
  dsimp only
  rw [hf]

theorem storeOne_eq_insert {r : Record} {lat lng : ℚ} {t : Table}
    (hl : r.latitude = some lat) (hg : r.longitude = some lng)
    (hf : t.rows.find? (fun w => keyOf w == recordKey r lat lng) = none)
    (d : ℕ) :
    storeOne d t r = ⟨t.rows ++ [newRow t r lat lng d], t.nextId + 1⟩ := by
  unfold storeOne
  rw [hl, hg]
  dsimp only
  rw [hf]

theorem storeOne_wf {t : Table} (h : TableWF t) (d : ℕ) (r : Record) :
    TableWF (storeOne d t r) := by
  rcases hl : r.latitude with - | lat
  · have : hasCoords r = false := by simp [hasCoords, hl]
    rw [storeOne_no_coords this]; exact h
  rcases hg : r.longitude with - | lng
  · have : hasCoords r = false := by simp [hasCoords, hg]
    rw [storeOne_no_coords this]; exact h
  rcases hf : t.rows.find? (fun w => keyOf w == recordKey r lat lng) with - | w
  · rw [storeOne_eq_insert hl hg hf d]
    obtain ⟨hid, hpid, hpkey⟩ := h
    refine ⟨?_, ?_, ?_⟩
    · intro x hx
      rcases List.mem_append.mp hx with hx | hx
      · exact Nat.lt_succ_of_lt (hid x hx)
      · rcases List.mem_singleton.mp hx with rfl
        exact Nat.lt_succ_self _
    · rw [List.pairwise_append]
      refine ⟨hpid, List.pairwise_singleton _ _, ?_⟩
      intro a ha b hb
      rcases List.mem_singleton.mp hb with rfl
      exact Nat.ne_of_lt (hid a ha)
    · rw [List.pairwise_append]
      refine ⟨hpkey, List.pairwise_singleton _ _, ?_⟩
      intro a ha b hb
      rcases List.mem_singleton.mp hb with rfl
      rw [keyOf_newRow]
      have := List.find?_eq_none.mp hf a ha
      simpa using this
  · rw [storeOne_eq_update hl hg hf d]
    obtain ⟨hid, hpid, hpkey⟩ := h
    refine ⟨?_, ?_, ?_⟩
    · intro x hx
      obtain ⟨y, hy, rfl⟩ := List.mem_map.mp hx
      rw [upd_id]
      exact hid y hy
    · rw [List.pairwise_map]
      exact hpid.imp (fun hab => by simpa [upd_id] using hab)
    · rw [List.pairwise_map]
      exact hpkey.imp (fun hab => by simpa [upd_keyOf] using hab)

theorem storeOne_keyIn {k : Key} {t : Table} (h : KeyIn k t) (d : ℕ)
    (r : Record) : KeyIn k (storeOne d t r) := by
  obtain ⟨x, hx, hkey⟩ := h
  rcases hl : r.latitude with - | lat
  · have : hasCoords r = false := by simp [hasCoords, hl]
    rw [storeOne_no_coords this]; exact ⟨x, hx, hkey⟩
  rcases hg : r.longitude with - | lng
  · have : hasCoords r = false := by simp [hasCoords, hg]
    rw [storeOne_no_coords this]; exact ⟨x, hx, hkey⟩
  rcases hf : t.rows.find? (fun w => keyOf w == recordKey r lat lng) with - | w
  · rw [storeOne_eq_insert hl hg hf d]
    exact ⟨x, List.mem_append.mpr (Or.inl hx), hkey⟩
  · rw [storeOne_eq_update hl hg hf d]
    refine ⟨if x.id = w.id then touch d x else x, ?_, ?_⟩
    · exact List.mem_map.mpr ⟨x, hx, rfl⟩
    · rw [upd_keyOf]; exact hkey

theorem storeOne_keyIn_self {r : Record} {lat lng : ℚ}
    (hl : r.latitude = some lat) (hg : r.longitude = some lng)
    (d : ℕ) (t : Table) : KeyIn (recordKey r lat lng) (storeOne d t r) := by
  rcases hf : t.rows.find? (fun w => keyOf w == recordKey r lat lng) with - | w
  · rw [storeOne_eq_insert hl hg hf d]
    exact ⟨newRow t r lat lng d,
      List.mem_append.mpr (Or.inr (List.mem_singleton.mpr rfl)), keyOf_newRow ..⟩
  · rw [storeOne_eq_update hl hg hf d]
    have hw : keyOf w = recordKey r lat lng := by
      simpa using List.find?_some hf
    refine ⟨if w.id = w.id then touch d w else w, ?_, ?_⟩
    · exact List.mem_map.mpr ⟨w, List.mem_of_find?_eq_some hf, rfl⟩
    · rw [upd_keyOf]; exact hw

theorem storeList_wf {t : Table} (h : TableWF t) (d : ℕ) (data : List Record) :
    TableWF (storeList d data t) := by
  induction data generalizing t with
  | nil => exact h
  | cons r rs ih => exact ih (storeOne_wf h d r)

theorem storeList_keyIn {k : Key} {t : Table} (h : KeyIn k t) (d : ℕ)
    (data : List Record) : KeyIn k (storeList d data t) := by
  induction data generalizing t with
  | nil => exact h
  | cons r rs ih => exact ih (storeOne_keyIn h d r)

theorem storeList_keyIn_all (d : ℕ) (data : List Record) :
    ∀ (t : Table), ∀ r ∈ data, ∀ lat lng,
      r.latitude = some lat → r.longitude = some lng →
      KeyIn (recordKey r lat lng) (storeList d data t) := by
  induction data with
  | nil => intro t r hr; cases hr
  | cons x xs ih =>
    intro t r hr lat lng hl hg
    rcases List.mem_cons.mp hr with rfl | hr
    · exact storeList_keyIn (storeOne_keyIn_self hl hg d t) d xs
    · exact ih (storeOne d t x) r hr lat lng hl hg

theorem storeOne_update_of_keyIn {r : Record} {lat lng : ℚ} {t : Table}
    (hl : r.latitude = some lat) (hg : r.longitude = some lng)
    (hk : KeyIn (recordKey r lat lng) t) (d : ℕ) :
    (storeOne d t r).rows.length = t.rows.length ∧
    (storeOne d t r).rows.map eraseLrd = t.rows.map eraseLrd := by
  rcases hf : t.rows.find? (fun w => keyOf w == recordKey r lat lng) with - | w
  · obtain ⟨x, hx, hkey⟩ := hk
    have := List.find?_eq_none.mp hf x hx
    simp [hkey] at this
  · rw [storeOne_eq_update hl hg hf d]
    refine ⟨List.length_map .., ?_⟩
    rw [List.map_map]
    have hfun : eraseLrd ∘ (fun x => if x.id = w.id then touch d x else x) = eraseLrd :=
      funext fun x => upd_eraseLrd w.id d x
    rw [hfun]

theorem storeList_second (d : ℕ) (data : List Record) :
    ∀ (t : Table),
      (∀ r ∈ data, ∀ lat lng, r.latitude = some lat → r.longitude = some lng →
        KeyIn (recordKey r lat lng) t) →
      (storeList d data t).rows.length = t.rows.length ∧
      (storeList d data t).rows.map eraseLrd = t.rows.map eraseLrd := by
  induction data with
  | nil => exact fun t _ => ⟨rfl, rfl⟩
  | cons r rs ih =>
    intro t h
    rcases hl : r.latitude with - | lat
    · have hc : hasCoords r = false := by simp [hasCoords, hl]
      rw [storeList, storeOne_no_coords hc]
      exact ih t (fun x hx => h x (List.mem_cons_of_mem r hx))
    rcases hg : r.longitude with - | lng
    · have hc : hasCoords r = false := by simp [hasCoords, hg]
      rw [storeList, storeOne_no_coords hc]
      exact ih t (fun x hx => h x (List.mem_cons_of_mem r hx))
    have hk := h r (List.mem_cons_self r rs) lat lng hl hg
    have h1 := storeOne_update_of_keyIn hl hg hk d
    have hrest : ∀ x ∈ rs, ∀ lat' lng', x.latitude = some lat' →
        x.longitude = some lng' → KeyIn (recordKey x lat' lng') (storeOne d t r) :=
      fun x hx lat' lng' hl' hg' =>
        storeOne_keyIn (h x (List.mem_cons_of_mem r hx) lat' lng' hl' hg') d r
    have h2 := ih (storeOne d t r) hrest
    exact ⟨h2.1.trans h1.1, h2.2.trans h1.2⟩

theorem countP_key_eq_one {k : Key} :
    ∀ (l : List Row), l.Pairwise (fun a b => keyOf a ≠ keyOf b) →
      ∀ x ∈ l, keyOf x = k → l.countP (fun w => keyOf w == k) = 1 := by
  intro l
  induction l with
  | nil => intro _ x hx; cases hx
  | cons y ys ih =>
    intro hp x hx hkey
    obtain ⟨hy, hys⟩ := List.pairwise_cons.mp hp
    rcases List.mem_cons.mp hx with rfl | hx
    · rw [List.countP_cons_of_pos _ _ (by simpa using hkey)]
      have hzero : ys.countP (fun w => keyOf w == k) = 0 :=
        List.countP_eq_zero.mpr (fun w hw => by
          have hne := hy w hw
          rw [hkey] at hne
          simp [Ne.symm hne])
      rw [hzero]
    · have hyk : keyOf y ≠ k := fun hc => (hy x hx) (hc.trans hkey.symm)
      rw [List.countP_cons_of_neg _ _ (by simpa using hyk)]
      exact ih hys x hx hkey

/-- The upsert runs on the table selected by `mode`. -/
theorem tableOf_store (db : DB) (data : List Record) (mode : Bool) (d : ℕ) :
    tableOf (store_data_in_postgis db data mode d) mode =
      storeList d data (tableOf db mode) := by
  cases mode <;> simp [store_data_in_postgis, tableOf]

/-- C1: on a well-formed table, storing the same record list twice leaves,
for every record of the list with both coordinates, exactly one row with its
identity key in the mode's table; the second call adds no row, and every row
of the second call's result agrees with the corresponding row after the
first call on every column except `last_recorded_date`. -/
theorem store_data_in_postgis_idempotent (db : DB) (data : List Record)
    (mode : Bool) (d1 d2 : ℕ) (hwf : TableWF (tableOf db mode)) :
    (tableOf (store_data_in_postgis (store_data_in_postgis db data mode d1)
        data mode d2) mode).rows.length =
      (tableOf (store_data_in_postgis db data mode d1) mode).rows.length ∧
    (tableOf (store_data_in_postgis (store_data_in_postgis db data mode d1)
        data mode d2) mode).rows.map eraseLrd =
      (tableOf (store_data_in_postgis db data mode d1) mode).rows.map eraseLrd ∧
    (∀ r ∈ data, ∀ lat lng, r.latitude = some lat → r.longitude = some lng →
      (tableOf (store_data_in_postgis (store_data_in_postgis db data mode d1)
          data mode d2) mode).rows.countP
        (fun w => keyOf w == recordKey r lat lng) = 1) := by
  rw [tableOf_store, tableOf_store]
  set t := tableOf db mode with ht
  have hpresent := storeList_keyIn_all d1 data t
  have hsecond := storeList_second d2 data (storeList d1 data t)
    (fun r hr lat lng hl hg => hpresent r hr lat lng hl hg)
  refine ⟨hsecond.1, hsecond.2, ?_⟩
  intro r hr lat lng hl hg
  have hwf2 : TableWF (storeList d2 data (storeList d1 data t)) :=
    storeList_wf (storeList_wf hwf d1 data) d2 data
  have hkin : KeyIn (recordKey r lat lng) (storeList d2 data (storeList d1 data t)) :=
    storeList_keyIn (hpresent r hr lat lng hl hg) d2 data
  obtain ⟨x, hx, hkey⟩ := hkin
  exact countP_key_eq_one _ hwf2.2.2 x hx hkey

/-- Witness for C1: storing `[demoRecord]` twice into an empty database
leaves exactly one row with `demoRecord`'s identity key. -/
theorem store_data_in_postgis_idempotent_witness :
    (tableOf (store_data_in_postgis (store_data_in_postgis ⟨⟨[], 1⟩, ⟨[], 1⟩⟩
        [demoRecord] false 0) [demoRecord] false 1) false).rows.countP
      (fun w => keyOf w == recordKey demoRecord 10 20) = 1 :=
  (store_data_in_postgis_idempotent ⟨⟨[], 1⟩, ⟨[], 1⟩⟩ [demoRecord] false 0 1
    ⟨fun w hw => absurd hw (List.not_mem_nil w), List.Pairwise.nil,
      List.Pairwise.nil⟩).2.2
    demoRecord (List.mem_singleton.mpr rfl) 10 20 rfl rfl

end PropertyValuation
